import Mathlib

/-!
Shallow embedding of the Alak Gatekeeper admission-control pipeline
(`alak-gatekeeper/main.go` and the richer revision of the same subsystem
kept in the repository), together with proofs of the specified properties.

Go strings are modelled as Lean `String`s; the byte view needed by the
FNV hash is recovered through an explicit UTF-8 encoder, matching Go's
`[]byte(s)` conversion for well-formed strings.
-/

namespace Alak

/-- Go's `unicode.IsSpace` (the Unicode White_Space property), encoded as
the exact finite set of code points it accepts. -/
def goIsSpace (c : Char) : Bool :=
  decide ((9 ≤ c.toNat ∧ c.toNat ≤ 13) ∨ c.toNat = 32 ∨ c.toNat = 0x85 ∨
    c.toNat = 0xA0 ∨ c.toNat = 0x1680 ∨
    (0x2000 ≤ c.toNat ∧ c.toNat ≤ 0x200A) ∨
    c.toNat = 0x2028 ∨ c.toNat = 0x2029 ∨ c.toNat = 0x202F ∨
    c.toNat = 0x205F ∨ c.toNat = 0x3000)

/-- Drop elements satisfying `p` from the end of a list. -/
def dropWhileEnd (p : α → Bool) (l : List α) : List α :=
  (l.reverse.dropWhile p).reverse

/-- `strings.TrimSpace` on the character list: drop Go-whitespace from
both ends. -/
def trimChars (cs : List Char) : List Char :=
  dropWhileEnd goIsSpace (cs.dropWhile goIsSpace)

/-- Go `strings.TrimSpace`. -/
def goTrimSpace (s : String) : String := ⟨trimChars s.data⟩

/-- Go `strings.ToUpper`, restricted to the ASCII fragment of Go's
Unicode case mapping (`Char.toUpper` maps `a`–`z` and fixes everything
else); the fields this program uppercases are ASCII. -/
def goToUpper (s : String) : String := ⟨s.data.map Char.toUpper⟩

/-- Go `strings.ToLower`, ASCII fragment (used only to state
lowercase-ness of fields). -/
def goToLower (s : String) : String := ⟨s.data.map Char.toLower⟩

/-- Go `strings.Contains s sub`: `sub` occurs as a contiguous substring
of `s`. -/
def goContains (s sub : String) : Bool := decide (sub.data <:+: s.data)

/-- `cleanField` from `alak-gatekeeper/main.go`: trim whitespace, map the
literal placeholder `"-"` to empty, and uppercase when the field is the
country. -/
def cleanField (s : String) (isCountry : Bool) : String :=
  let s := goTrimSpace s
  let s := if s = "-" then "" else s
  if isCountry then goToUpper s else s

/-- `Meta` from `alak-gatekeeper/main.go` (the origin-metadata record). -/
structure Meta where
  asn : String
  country : String
  tsp : String
  city : String
deriving DecidableEq, Repr

/-- The three normalization assignments applied to the decoded metadata in
`proxyHandler` (`meta.ASN/Country/TSP = cleanField ...`). -/
def normalizeMeta (m : Meta) : Meta :=
  { m with
    asn := cleanField m.asn false
    country := cleanField m.country true
    tsp := cleanField m.tsp false }

/-- `Rule` from `alak-gatekeeper/main.go`. `dropPercent` and `ttl` are Go
`int`s, modelled as `Int`. -/
structure Rule where
  asn : String
  country : String
  tsp : String
  dropPercent : Int
  ttl : Int
  enabled : Bool
deriving DecidableEq, Repr

/-- UTF-8 encoding of one scalar value, as byte values; this is how Go's
`[]byte(s)` presents a well-formed string to the hash. -/
def utf8EncodeChar (c : Char) : List Nat :=
  let n := c.toNat
  if n < 0x80 then [n]
  else if n < 0x800 then [0xC0 + n / 64, 0x80 + n % 64]
  else if n < 0x10000 then
    [0xE0 + n / 4096, 0x80 + (n / 64) % 64, 0x80 + n % 64]
  else
    [0xF0 + n / 262144, 0x80 + (n / 4096) % 64, 0x80 + (n / 64) % 64,
     0x80 + n % 64]

/-- The UTF-8 bytes of a string. -/
def stringBytes (s : String) : List Nat := (s.data.map utf8EncodeChar).flatten

/-- One step of 32-bit FNV-1a (`hash/fnv`, `fnv.New32a`): xor the byte in,
multiply by the FNV prime, keep 32 bits. -/
def fnvStep (h b : Nat) : Nat := ((h ^^^ b) * 16777619) % 4294967296

/-- 32-bit FNV-1a over a byte sequence, starting from the FNV offset
basis. -/
def fnv32a (bs : List Nat) : Nat := bs.foldl fnvStep 2166136261

/-- `hashIP` from `alak-gatekeeper/main.go`: `fnv.New32a` over the IP
string's bytes, reduced mod 100. -/
def hashIP (ip : String) : Nat := fnv32a (stringBytes ip) % 100

/-- The `Decision` outcome of the admission decision engine. -/
inductive Decision where
  | allow
  | drop
deriving DecidableEq, Repr

/-- The admission decision inlined in `proxyHandler`: a disabled rule
allows; otherwise drop exactly when `hashIP ip < rule.DropPercent`. -/
def decideRule (rule : Rule) (ip : String) : Decision :=
  if rule.enabled = false then .allow
  else if (hashIP ip : Int) < rule.dropPercent then .drop
  else .allow

/-- The serialized rule-key format `rule:<asn>:<country>:<tsp>`. -/
def ruleKey (a c t : String) : String :=
  "rule:" ++ a ++ ":" ++ c ++ ":" ++ t

/-- The global catch-all key `rule:*:*:*`. -/
def globalKey : String := ruleKey "*" "*" "*"

/-- `buildRuleKeys` from `alak-gatekeeper/main.go`: candidate keys, most
specific first; ASN counts as set only together with TSP. -/
def buildRuleKeys (meta : Meta) : List String :=
  let asnSet := meta.asn != "" && meta.tsp != ""
  let countrySet := meta.country != ""
  let keys : List String := []
  let keys :=
    if asnSet then
      if countrySet then
        keys ++ [ruleKey meta.asn meta.country meta.tsp,
                 ruleKey meta.asn meta.country "*",
                 ruleKey meta.asn "*" meta.tsp,
                 ruleKey meta.asn "*" "*"]
      else
        keys ++ [ruleKey meta.asn "*" meta.tsp,
                 ruleKey meta.asn "*" "*"]
    else keys
  let keys :=
    if !asnSet && countrySet then keys ++ [ruleKey "*" meta.country "*"]
    else keys
  keys ++ [globalKey]

/-- The rule store's answer to one `GET` (`redisClient.Get`): key absent
(`redis.Nil`), a transport error, or a stored string value. -/
inductive StoreResult where
  | nil
  | err
  | val (v : String)
deriving DecidableEq, Repr

/-- The outcome of the key-probing loop in `proxyHandler`. -/
inductive LookupResult where
  | found (key : String) (rule : Rule)
  | notFound
  | errOpen
deriving DecidableEq, Repr

/-- The rule-lookup loop of `proxyHandler`: probe each key in order;
absent continues, a store error or an undecodable value fails open, the
first present decodable value wins.  `dec` models `json.Unmarshal` into a
`Rule`. -/
def lookupLoop (store : String → StoreResult) (dec : String → Option Rule) :
    List String → LookupResult
  | [] => .notFound
  | k :: rest =>
    match store k with
    | .nil => lookupLoop store dec rest
    | .err => .errOpen
    | .val v =>
      match dec v with
      | none => .errOpen
      | some r => .found k r

/-- The origin-metadata collaborator's answer to the gatekeeper's lookup:
a network error, or an HTTP response with a status code and a body that
either decodes into a `Meta` or is malformed. -/
inductive GeoResult where
  | netError
  | httpResp (code : Nat) (decoded : Option Meta)
deriving DecidableEq, Repr

/-- What the gatekeeper does with one request: answer directly with a
status and body, or forward it to the upstream with the given client
IP. -/
inductive GatewayOutcome where
  | respond (status : Nat) (body : String)
  | forwarded (ip : String)
deriving DecidableEq, Repr

/-- Body of the 400 answer in `proxyHandler`. -/
def missingIPBody : String := "Missing X-Forwarded-For header"

/-- Body of the 403 answer in `proxyHandler`. -/
def blockedBody : String := "Request blocked by Alak Gatekeeper\n"

/-- Client-IP extraction at the top of `proxyHandler`: the raw
`X-Forwarded-For` value when non-empty, else the host part of the
transport peer address (empty when that extraction failed). -/
def clientIPOf (xff remoteHost : String) : String :=
  if xff = "" then remoteHost else xff

/-- The URL `proxyHandler` asks the origin-metadata collaborator
(`fmt.Sprintf("%s?ip=%s", geoURL, ip)`). -/
def lookupURLFor (geoURL ip : String) : String := geoURL ++ "?ip=" ++ ip

/-- `proxyHandler` as a decision pipeline: IP extraction, geo lookup with
its fail-open arms, normalization, key generation, the store loop with
its fail-open arms, and the admission decision. -/
def handleRequest (xff remoteHost : String) (geo : GeoResult)
    (store : String → StoreResult) (dec : String → Option Rule) :
    GatewayOutcome :=
  let ip := clientIPOf xff remoteHost
  if ip = "" then .respond 400 missingIPBody
  else
    match geo with
    | .netError => .forwarded ip
    | .httpResp code decoded =>
      if code = 404 then .forwarded ip
      else if code ≠ 200 then .forwarded ip
      else
        match decoded with
        | none => .forwarded ip
        | some meta0 =>
          let meta := normalizeMeta meta0
          match lookupLoop store dec (buildRuleKeys meta) with
          | .errOpen => .forwarded ip
          | .notFound => .forwarded ip
          | .found _ rule =>
            match decideRule rule ip with
            | .drop => .respond 403 blockedBody
            | .allow => .forwarded ip

/-- The outbound `X-Forwarded-For` value produced by `proxyToHAProxy`:
all inbound headers are first copied verbatim, then the header is
re-`Set` to `existing + ", " + clientIP` when the existing value does not
already contain the client IP, or to `clientIP` when there was none;
otherwise the copied value stands. -/
def outboundXFF (existing clientIP : String) : String :=
  if existing ≠ "" && !(goContains existing clientIP) then
    existing ++ ", " ++ clientIP
  else if existing = "" then clientIP
  else existing

/-- An upstream HTTP response as the redirect logic sees it: status,
optional `Location` header, body. -/
structure HttpResponse where
  status : Nat
  location : Option String
  body : String
deriving DecidableEq, Repr

/-- A Go `http.Client`'s redirect policy: the default (`CheckRedirect`
nil, follow up to 10 redirects) or `ErrUseLastResponse` (return the most
recent response without following). -/
inductive RedirectPolicy where
  | defaultFollow
  | useLastResponse
deriving DecidableEq, Repr

/-- The statuses Go's `http.Client` treats as followable redirects. -/
def isRedirectStatus (code : Nat) : Bool :=
  code == 301 || code == 302 || code == 303 || code == 307 || code == 308

/-- Go `http.Client.Do` redirect loop: `upstream n` is the response to
the `n`-th request of the chain.  Returns the final response (`none` for
the "stopped after 10 redirects" error) and how many requests were
issued. -/
def clientDoAux (policy : RedirectPolicy) (upstream : Nat → HttpResponse) :
    Nat → Nat → Option HttpResponse × Nat
  | n, fuel =>
    let r := upstream n
    if isRedirectStatus r.status && r.location.isSome then
      match policy with
      | .useLastResponse => (some r, n + 1)
      | .defaultFollow =>
        match fuel with
        | 0 => (none, n + 1)
        | fuel' + 1 => clientDoAux policy upstream (n + 1) fuel'
    else (some r, n + 1)

/-- Go `http.Client.Do` with the client's redirect policy and budget. -/
def clientDo (policy : RedirectPolicy) (upstream : Nat → HttpResponse) :
    Option HttpResponse × Nat :=
  clientDoAux policy upstream 0 10

/-- The redirect policy installed by `newProxyClient` in the richer
gatekeeper revision: `CheckRedirect` returns `http.ErrUseLastResponse`. -/
def newProxyClientPolicy : RedirectPolicy := .useLastResponse

/-- How `proxyToHAProxy` answers the caller from the upstream response:
status code and body are copied verbatim. -/
def copyResponse (r : HttpResponse) : GatewayOutcome := .respond r.status r.body

/-- Reference enumeration written from the claim's words: the candidate
rule keys the spec says the generator emits, case by case. -/
def specRuleKeys (meta : Meta) : List String :=
  (if meta.asn ≠ "" ∧ meta.tsp ≠ "" then
    if meta.country ≠ "" then
      [ruleKey meta.asn meta.country meta.tsp,
       ruleKey meta.asn meta.country "*",
       ruleKey meta.asn "*" meta.tsp,
       ruleKey meta.asn "*" "*"]
    else
      [ruleKey meta.asn "*" meta.tsp, ruleKey meta.asn "*" "*"]
  else if meta.country ≠ "" then [ruleKey "*" meta.country "*"]
  else []) ++ [globalKey]

/-- The first address of a comma-separated forwarding chain (everything
before the first comma, trimmed) — the identity the implicit claim says
the gateway does NOT use. -/
def firstForwardedAddr (s : String) : String :=
  goTrimSpace ⟨s.data.takeWhile (fun c => c ≠ ',')⟩

/-! ## Helper lemmas -/

lemma char_toNat_ofNat (n : Nat) (h : n < 55296) : (Char.ofNat n).toNat = n := by
  rw [Char.ofNat, dif_pos (Or.inl h)]
  rfl

lemma goIsSpace_toUpper (c : Char) : goIsSpace c.toUpper = goIsSpace c := by
  unfold Char.toUpper
  by_cases h : c.toNat ≥ 97 ∧ c.toNat ≤ 122
  · rw [if_pos h]
    have h1 : (Char.ofNat (c.toNat - 32)).toNat = c.toNat - 32 :=
      char_toNat_ofNat _ (by omega)
    simp only [goIsSpace, h1, decide_eq_decide]
    omega
  · rw [if_neg h]

lemma toUpper_idem (c : Char) : c.toUpper.toUpper = c.toUpper := by
  by_cases h : c.toNat ≥ 97 ∧ c.toNat ≤ 122
  · have h0 : c.toUpper = Char.ofNat (c.toNat - 32) := by
      unfold Char.toUpper
      rw [if_pos h]
    have h1 : (Char.ofNat (c.toNat - 32)).toNat = c.toNat - 32 :=
      char_toNat_ofNat _ (by omega)
    rw [h0]
    unfold Char.toUpper
    rw [if_neg (by omega)]
  · have h0 : c.toUpper = c := by
      unfold Char.toUpper
      rw [if_neg h]
    rw [h0, h0]

lemma goToUpper_idem (s : String) : goToUpper (goToUpper s) = goToUpper s := by
  simp [goToUpper, Function.comp_def, toUpper_idem]

lemma dropWhile_head_false (p : Char → Bool) (c : Char) (rest : List Char) :
    ∀ l : List Char, l.dropWhile p = c :: rest → p c = false := by
  intro l
  induction l with
  | nil => intro h; simp [List.dropWhile] at h
  | cons a l ih =>
    intro h
    rw [List.dropWhile_cons] at h
    by_cases pa : p a
    · rw [if_pos pa] at h
      exact ih h
    · rw [if_neg pa] at h
      cases h
      simpa using pa

lemma dropWhile_rdropWhile_dropWhile (p : Char → Bool) (l : List Char) :
    (List.rdropWhile p (l.dropWhile p)).dropWhile p =
      List.rdropWhile p (l.dropWhile p) := by
  rcases hx : List.rdropWhile p (l.dropWhile p) with _ | ⟨c, rest⟩
  · simp
  · have hpre := List.rdropWhile_prefix p (l.dropWhile p)
    rw [hx] at hpre
    obtain ⟨t, ht⟩ := hpre
    have hc : p c = false := dropWhile_head_false p c (rest ++ t) l (by
      rw [← ht]
      rfl)
    simp [List.dropWhile_cons, hc]

lemma trimChars_idem (cs : List Char) : trimChars (trimChars cs) = trimChars cs := by
  show trimChars (List.rdropWhile goIsSpace (cs.dropWhile goIsSpace)) = _
  unfold trimChars
  show List.rdropWhile goIsSpace
      ((List.rdropWhile goIsSpace (cs.dropWhile goIsSpace)).dropWhile goIsSpace) = _
  rw [dropWhile_rdropWhile_dropWhile, List.rdropWhile_idempotent]
  rfl

lemma goTrimSpace_idem (s : String) : goTrimSpace (goTrimSpace s) = goTrimSpace s := by
  simp [goTrimSpace, trimChars_idem]

lemma trimChars_map_toUpper (cs : List Char) :
    trimChars (cs.map Char.toUpper) = (trimChars cs).map Char.toUpper := by
  have hcomp : (goIsSpace ∘ Char.toUpper) = goIsSpace := funext goIsSpace_toUpper
  unfold trimChars dropWhileEnd
  rw [List.dropWhile_map, hcomp, ← List.map_reverse, List.dropWhile_map, hcomp,
    ← List.map_reverse]

lemma goTrimSpace_goToUpper (s : String) :
    goTrimSpace (goToUpper s) = goToUpper (goTrimSpace s) := by
  simp [goTrimSpace, goToUpper, trimChars_map_toUpper]

lemma goTrimSpace_placeholder (s : String) :
    goTrimSpace (if goTrimSpace s = "-" then "" else goTrimSpace s) =
      (if goTrimSpace s = "-" then "" else goTrimSpace s) := by
  split
  · rfl
  · exact goTrimSpace_idem s

lemma goTrimSpace_cleanField (s : String) (b : Bool) :
    goTrimSpace (cleanField s b) = cleanField s b := by
  cases b
  · show goTrimSpace (if goTrimSpace s = "-" then "" else goTrimSpace s) = _
    exact goTrimSpace_placeholder s
  · show goTrimSpace (goToUpper (if goTrimSpace s = "-" then "" else goTrimSpace s)) = _
    rw [goTrimSpace_goToUpper, goTrimSpace_placeholder]
    rfl

lemma goToUpper_cleanField (s : String) :
    goToUpper (cleanField s true) = cleanField s true := by
  show goToUpper (goToUpper (if goTrimSpace s = "-" then "" else goTrimSpace s)) = _
  exact goToUpper_idem _

lemma hashIP_lt (ip : String) : hashIP ip < 100 :=
  Nat.mod_lt _ (by norm_num)

/-! ## Claim theorems -/

/-- C9: when the inbound request has no forwarding-chain header and the
transport peer address yields no client IP, the gateway answers HTTP 400
with the missing-header body, whatever the metadata collaborator and the
rule store would have answered — the outcome does not depend on them, so
no call to either can influence (or be needed for) the response. -/
theorem handleRequest_no_ip_400 (geo : GeoResult) (store : String → StoreResult)
    (dec : String → Option Rule) :
    handleRequest "" "" geo store dec = .respond 400 missingIPBody := rfl

/-- C5 (amended): normalization trims each field (the results are fixed
points of trimming), maps a trimmed literal `"-"` to empty, and leaves
country a fixed point of uppercasing; the tsp field is only trimmed and
placeholder-cleaned — its letter case is preserved, not lowercased. -/
theorem normalizeMeta_invariants (m : Meta) :
    (goTrimSpace (normalizeMeta m).asn = (normalizeMeta m).asn ∧
     goTrimSpace (normalizeMeta m).country = (normalizeMeta m).country ∧
     goTrimSpace (normalizeMeta m).tsp = (normalizeMeta m).tsp) ∧
    (goTrimSpace m.asn = "-" → (normalizeMeta m).asn = "") ∧
    (goTrimSpace m.country = "-" → (normalizeMeta m).country = "") ∧
    (goTrimSpace m.tsp = "-" → (normalizeMeta m).tsp = "") ∧
    goToUpper (normalizeMeta m).country = (normalizeMeta m).country ∧
    ((normalizeMeta m).tsp = goTrimSpace m.tsp ∨ (normalizeMeta m).tsp = "") := by
  refine ⟨⟨goTrimSpace_cleanField m.asn false, goTrimSpace_cleanField m.country true,
    goTrimSpace_cleanField m.tsp false⟩, ?_, ?_, ?_, goToUpper_cleanField m.country, ?_⟩
  · intro h
    show (if goTrimSpace m.asn = "-" then "" else goTrimSpace m.asn) = ""
    rw [if_pos h]
  · intro h
    show goToUpper (if goTrimSpace m.country = "-" then "" else goTrimSpace m.country) = ""
    rw [if_pos h]
    rfl
  · intro h
    show (if goTrimSpace m.tsp = "-" then "" else goTrimSpace m.tsp) = ""
    rw [if_pos h]
  · by_cases h : goTrimSpace m.tsp = "-"
    · refine Or.inr ?_
      show (if goTrimSpace m.tsp = "-" then "" else goTrimSpace m.tsp) = ""
      rw [if_pos h]
    · refine Or.inl ?_
      show (if goTrimSpace m.tsp = "-" then "" else goTrimSpace m.tsp) = goTrimSpace m.tsp
      rw [if_neg h]

/-- C5 witness: concrete inputs exercising the placeholder hypothesis of
the amended invariants. -/
theorem normalizeMeta_invariants_witness :
    (normalizeMeta ⟨"AS1", " ir ", " - ", "x"⟩).tsp = "" ∧
    goToUpper (normalizeMeta ⟨"AS1", " ir ", " - ", "x"⟩).country =
      (normalizeMeta ⟨"AS1", " ir ", " - ", "x"⟩).country :=
  ⟨(normalizeMeta_invariants ⟨"AS1", " ir ", " - ", "x"⟩).2.2.2.1 (by decide),
   (normalizeMeta_invariants ⟨"AS1", " ir ", " - ", "x"⟩).2.2.2.2.1⟩

/-- C5 counterexample: the collaborator may answer a mixed-case tsp; the
resolver's normalization keeps it non-empty and NOT lowercase, refuting
"tsp is lowercase free text or empty" as a normalization invariant. -/
theorem normalizeMeta_tsp_not_lowercased :
    (normalizeMeta ⟨"AS1", "IR", "Irancell", ""⟩).tsp ≠ "" ∧
    goToLower ((normalizeMeta ⟨"AS1", "IR", "Irancell", ""⟩).tsp) ≠
      (normalizeMeta ⟨"AS1", "IR", "Irancell", ""⟩).tsp := by
  decide

/-- C2: the key generator equals the reference enumeration written from
the spec (exact→country-wildcard→tsp-wildcard→asn-only when asn, tsp,
country are all set; the two asn keys when country is empty; the single
country key when the asn/tsp pair is incomplete), and the global
catch-all key is always the last element. -/
theorem buildRuleKeys_eq_spec (meta : Meta) :
    buildRuleKeys meta = specRuleKeys meta ∧
    (buildRuleKeys meta).getLast? = some globalKey := by
  have h : buildRuleKeys meta = specRuleKeys meta := by
    unfold buildRuleKeys specRuleKeys
    by_cases ha : meta.asn = "" <;> by_cases ht : meta.tsp = "" <;>
      by_cases hc : meta.country = "" <;> simp [ha, ht, hc]
  refine ⟨h, ?_⟩
  rw [h]
  unfold specRuleKeys
  exact List.getLast?_concat _

/-- C3: with asn, tsp and country all present, the exact key heads the
candidate list, so whenever the store holds a decodable rule under the
exact key the lookup loop returns that rule at that key — regardless of
which wildcard keys are also present in the store. -/
theorem lookupLoop_exact_first (meta : Meta) (store : String → StoreResult)
    (dec : String → Option Rule) (v : String) (rule : Rule)
    (ha : meta.asn ≠ "") (ht : meta.tsp ≠ "") (hc : meta.country ≠ "")
    (hstore : store (ruleKey meta.asn meta.country meta.tsp) = .val v)
    (hdec : dec v = some rule) :
    lookupLoop store dec (buildRuleKeys meta) =
      .found (ruleKey meta.asn meta.country meta.tsp) rule := by
  have hkeys : buildRuleKeys meta =
      ruleKey meta.asn meta.country meta.tsp ::
        [ruleKey meta.asn meta.country "*", ruleKey meta.asn "*" meta.tsp,
         ruleKey meta.asn "*" "*", globalKey] := by
    unfold buildRuleKeys
    simp [ha, ht, hc]
  rw [hkeys]
  simp [lookupLoop, hstore, hdec]

/-- C3 witness: a store holding the exact key, a wildcard key and the
global key with different rules still yields the exact-key rule. -/
theorem lookupLoop_exact_first_witness :
    lookupLoop
      (fun k =>
        if k = "rule:AS44244:IR:irancell" then .val "e"
        else if k = "rule:AS44244:*:*" then .val "w"
        else if k = "rule:*:*:*" then .val "g" else .nil)
      (fun v => if v = "e" then some ⟨"AS44244", "IR", "irancell", 100, 0, true⟩
                else some ⟨"", "", "", 0, 0, false⟩)
      (buildRuleKeys ⟨"AS44244", "IR", "irancell", "Tehran"⟩) =
      .found "rule:AS44244:IR:irancell" ⟨"AS44244", "IR", "irancell", 100, 0, true⟩ := by
  have h := lookupLoop_exact_first ⟨"AS44244", "IR", "irancell", "Tehran"⟩
    (fun k =>
      if k = "rule:AS44244:IR:irancell" then .val "e"
      else if k = "rule:AS44244:*:*" then .val "w"
      else if k = "rule:*:*:*" then .val "g" else .nil)
    (fun v => if v = "e" then some ⟨"AS44244", "IR", "irancell", 100, 0, true⟩
              else some ⟨"", "", "", 0, 0, false⟩)
    "e" ⟨"AS44244", "IR", "irancell", 100, 0, true⟩
    (by decide) (by decide) (by decide) (by decide) (by decide)
  exact h

lemma clientIPOf_ne (xff remote : String) (h : xff ≠ "") :
    clientIPOf xff remote = xff := if_neg h

lemma handleRequest_found (xff remote : String) (store : String → StoreResult)
    (dec : String → Option Rule) (m : Meta) (k : String) (rule : Rule)
    (hip : clientIPOf xff remote ≠ "")
    (hfound : lookupLoop store dec (buildRuleKeys (normalizeMeta m)) = .found k rule) :
    handleRequest xff remote (.httpResp 200 (some m)) store dec =
      (match decideRule rule (clientIPOf xff remote) with
       | .drop => .respond 403 blockedBody
       | .allow => .forwarded (clientIPOf xff remote)) := by
  simp [handleRequest, hip, hfound]

/-- C1: for an enabled rule the decision engine drops exactly when the
FNV-1a bucket of the client IP is below the rule's drop percentage; a
rule with dropPercent 0 always allows, one with dropPercent 100 always
drops, and a drop makes the gateway answer 403 with the blocked body. -/
theorem decideRule_characterization (rule : Rule) (ip : String)
    (h : rule.enabled = true) :
    (decideRule rule ip = .drop ↔ (hashIP ip : Int) < rule.dropPercent) ∧
    (rule.dropPercent = 0 → decideRule rule ip = .allow) ∧
    (rule.dropPercent = 100 → decideRule rule ip = .drop) ∧
    (∀ (remote : String) (store : String → StoreResult)
       (dec : String → Option Rule) (m : Meta) (k : String),
        ip ≠ "" →
        lookupLoop store dec (buildRuleKeys (normalizeMeta m)) = .found k rule →
        decideRule rule ip = .drop →
        handleRequest ip remote (.httpResp 200 (some m)) store dec =
          .respond 403 blockedBody) := by
  have hd : decideRule rule ip =
      if (hashIP ip : Int) < rule.dropPercent then .drop else .allow := by
    unfold decideRule
    rw [if_neg (by simp [h])]
  refine ⟨?_, ?_, ?_, ?_⟩
  · rw [hd]
    by_cases hlt : (hashIP ip : Int) < rule.dropPercent <;> simp [hlt]
  · intro h0
    rw [hd, h0, if_neg (by exact not_lt.mpr (Int.natCast_nonneg _))]
  · intro h100
    rw [hd, h100, if_pos (by exact_mod_cast hashIP_lt ip)]
  · intro remote store dec m k hip hfound hdrop
    have hcip : clientIPOf ip remote = ip := clientIPOf_ne ip remote hip
    rw [handleRequest_found ip remote store dec m k rule (by rw [hcip]; exact hip) hfound,
      hcip, hdrop]

/-- C1 witness: a concrete enabled rule with dropPercent 100 drops the
concrete IP and the pipeline answers 403. -/
theorem decideRule_characterization_witness :
    decideRule ⟨"", "", "", 100, 0, true⟩ "1.2.3.4" = .drop ∧
    handleRequest "1.2.3.4" "" (.httpResp 200 (some ⟨"", "", "", ""⟩))
      (fun _ => .val "r") (fun _ => some ⟨"", "", "", 100, 0, true⟩) =
      .respond 403 blockedBody := by
  have h := decideRule_characterization ⟨"", "", "", 100, 0, true⟩ "1.2.3.4" rfl
  exact ⟨h.2.2.1 rfl,
    h.2.2.2 "" (fun _ => .val "r") (fun _ => some ⟨"", "", "", 100, 0, true⟩)
      ⟨"", "", "", ""⟩ "rule:*:*:*" (by decide) (by decide) (h.2.2.1 rfl)⟩

/-- C4: every origin-lookup failure (network error, non-success status
other than 404, malformed body) and every rule-store failure (transport
error, undecodable stored value, both surfacing as the loop's fail-open
arm) makes the pipeline forward the request — the same outcome as when no
rule matched — and never an error response to the caller. -/
theorem failOpen_pipeline (xff remote : String) (store : String → StoreResult)
    (dec : String → Option Rule) (h : clientIPOf xff remote ≠ "") :
    (handleRequest xff remote .netError store dec =
        .forwarded (clientIPOf xff remote)) ∧
    (∀ (code : Nat) (m? : Option Meta), code ≠ 200 → code ≠ 404 →
        handleRequest xff remote (.httpResp code m?) store dec =
          .forwarded (clientIPOf xff remote)) ∧
    (handleRequest xff remote (.httpResp 200 none) store dec =
        .forwarded (clientIPOf xff remote)) ∧
    (∀ m : Meta, lookupLoop store dec (buildRuleKeys (normalizeMeta m)) = .errOpen →
        handleRequest xff remote (.httpResp 200 (some m)) store dec =
          .forwarded (clientIPOf xff remote)) ∧
    (∀ (k : String) (rest : List String), store k = .err →
        lookupLoop store dec (k :: rest) = .errOpen) ∧
    (∀ (k : String) (rest : List String) (v : String),
        store k = .val v → dec v = none →
        lookupLoop store dec (k :: rest) = .errOpen) ∧
    (∀ m : Meta, lookupLoop store dec (buildRuleKeys (normalizeMeta m)) = .notFound →
        handleRequest xff remote (.httpResp 200 (some m)) store dec =
          .forwarded (clientIPOf xff remote)) := by
  refine ⟨?_, ?_, ?_, ?_, ?_, ?_, ?_⟩
  · simp [handleRequest, h]
  · intro code m? h200 h404
    simp [handleRequest, h, h200, h404]
  · simp [handleRequest, h]
  · intro m herr
    simp [handleRequest, h, herr]
  · intro k rest hk
    simp [lookupLoop, hk]
  · intro k rest v hk hv
    simp [lookupLoop, hk, hv]
  · intro m hnf
    simp [handleRequest, h, hnf]

/-- C4 witness: concrete fail-open scenarios — geo network error, geo
status 500, and a store that reports a transport error — all forward. -/
theorem failOpen_pipeline_witness :
    handleRequest "1.2.3.4" "" .netError (fun _ => .err) (fun _ => none) =
      .forwarded "1.2.3.4" ∧
    handleRequest "1.2.3.4" "" (.httpResp 500 none) (fun _ => .err) (fun _ => none) =
      .forwarded "1.2.3.4" ∧
    handleRequest "1.2.3.4" "" (.httpResp 200 (some ⟨"", "", "", ""⟩))
      (fun _ => .err) (fun _ => none) = .forwarded "1.2.3.4" := by
  have h := failOpen_pipeline "1.2.3.4" "" (fun _ => .err) (fun _ => none) (by decide)
  exact ⟨h.1, h.2.1 500 none (by decide) (by decide),
    h.2.2.2.1 ⟨"", "", "", ""⟩ (by decide)⟩

/-- C8: the pipeline forwards (allows) both when the lookup loop exhausts
every candidate key without a hit and when the first matching rule is
disabled; a disabled rule's decision is Allow for every client IP. -/
theorem allow_on_notFound_or_disabled (xff remote : String)
    (store : String → StoreResult) (dec : String → Option Rule)
    (h : clientIPOf xff remote ≠ "") :
    (∀ m : Meta, lookupLoop store dec (buildRuleKeys (normalizeMeta m)) = .notFound →
        handleRequest xff remote (.httpResp 200 (some m)) store dec =
          .forwarded (clientIPOf xff remote)) ∧
    (∀ (m : Meta) (k : String) (rule : Rule), rule.enabled = false →
        lookupLoop store dec (buildRuleKeys (normalizeMeta m)) = .found k rule →
        handleRequest xff remote (.httpResp 200 (some m)) store dec =
          .forwarded (clientIPOf xff remote)) ∧
    (∀ (rule : Rule) (ip : String), rule.enabled = false →
        decideRule rule ip = .allow) := by
  have hdis : ∀ (rule : Rule) (ip : String), rule.enabled = false →
      decideRule rule ip = .allow := by
    intro rule ip he
    unfold decideRule
    rw [if_pos he]
  refine ⟨?_, ?_, hdis⟩
  · intro m hnf
    simp [handleRequest, h, hnf]
  · intro m k rule he hfound
    rw [handleRequest_found xff remote store dec m k rule h hfound,
      hdis rule (clientIPOf xff remote) he]

/-- C8 witness: an empty store yields NotFound and forwards; a disabled
rule with dropPercent 100 at the matched key still forwards. -/
theorem allow_on_notFound_or_disabled_witness :
    handleRequest "1.2.3.4" "" (.httpResp 200 (some ⟨"", "", "", ""⟩))
      (fun _ => .nil) (fun _ => none) = .forwarded "1.2.3.4" ∧
    handleRequest "1.2.3.4" "" (.httpResp 200 (some ⟨"", "", "", ""⟩))
      (fun _ => .val "r") (fun _ => some ⟨"", "", "", 100, 0, false⟩) =
      .forwarded "1.2.3.4" := by
  refine ⟨(allow_on_notFound_or_disabled "1.2.3.4" "" (fun _ => .nil) (fun _ => none)
      (by decide)).1 ⟨"", "", "", ""⟩ (by decide),
    (allow_on_notFound_or_disabled "1.2.3.4" "" (fun _ => .val "r")
      (fun _ => some ⟨"", "", "", 100, 0, false⟩) (by decide)).2.1
      ⟨"", "", "", ""⟩ "rule:*:*:*" ⟨"", "", "", 100, 0, false⟩ rfl (by decide)⟩

/-- C6 counterexample: when the existing forwarding-chain value already
contains the client IP as a substring (here: equals it), the forwarder
does NOT append — refuting "appends to any existing value". -/
theorem outboundXFF_append_counterexample :
    outboundXFF "1.2.3.4" "1.2.3.4" ≠ "1.2.3.4" ++ ", " ++ "1.2.3.4" := by
  decide

/-- C6 (amended): the forwarder appends the client IP to an existing
forwarding-chain value only when that value does not already contain the
IP as a substring, leaves the value unchanged when it does, sets the
header to the client IP when there was none; the existing value is always
preserved as a prefix (never overwritten) and the outbound value always
contains the client IP. -/
theorem outboundXFF_spec (existing ip : String) :
    (existing ≠ "" → goContains existing ip = false →
        outboundXFF existing ip = existing ++ ", " ++ ip) ∧
    (existing ≠ "" → goContains existing ip = true →
        outboundXFF existing ip = existing) ∧
    (existing = "" → outboundXFF existing ip = ip) ∧
    existing.data <+: (outboundXFF existing ip).data ∧
    goContains (outboundXFF existing ip) ip = true := by
  by_cases he : existing = ""
  · have hval : outboundXFF existing ip = ip := by
      unfold outboundXFF
      simp [he]
    refine ⟨?_, ?_, fun _ => hval, ?_, ?_⟩
    · intro hne
      exact absurd he hne
    · intro hne
      exact absurd he hne
    · rw [hval, he]
      exact List.nil_prefix
    · rw [hval]
      exact decide_eq_true (List.infix_refl _)
  · by_cases hcq : goContains existing ip = true
    · have hval : outboundXFF existing ip = existing := by
        unfold outboundXFF
        simp [he, hcq]
      refine ⟨?_, fun _ _ => hval, ?_, ?_, ?_⟩
      · intro _ hfalse
        rw [hcq] at hfalse
        cases hfalse
      · intro hz
        exact absurd hz he
      · rw [hval]
      · rw [hval]
        exact hcq
    · have hcf : goContains existing ip = false := by
        simpa using hcq
      have hval : outboundXFF existing ip = existing ++ ", " ++ ip := by
        unfold outboundXFF
        simp [he, hcf]
      refine ⟨fun _ _ => hval, ?_, ?_, ?_, ?_⟩
      · intro _ htrue
        rw [hcf] at htrue
        cases htrue
      · intro hz
        exact absurd hz he
      · rw [hval, String.data_append, String.data_append, List.append_assoc]
        exact List.prefix_append _ _
      · rw [hval]
        refine decide_eq_true ?_
        rw [String.data_append]
        exact (List.suffix_append _ _).isInfix

/-- C6 witness: a chain not containing the client IP gets the IP
appended; an absent chain is set fresh. -/
theorem outboundXFF_spec_witness :
    outboundXFF "10.0.0.5" "1.2.3.4" = "10.0.0.5" ++ ", " ++ "1.2.3.4" ∧
    outboundXFF "" "7.7.7.7" = "7.7.7.7" :=
  ⟨(outboundXFF_spec "10.0.0.5" "1.2.3.4").1 (by decide) (by decide),
   (outboundXFF_spec "" "7.7.7.7").2.2.1 rfl⟩

/-- C7: the proxy client of the richer gatekeeper revision installs
`ErrUseLastResponse`, so on a redirect (3xx with Location) upstream
response the client issues exactly one request and hands back that very
response, whose status and body are copied verbatim to the caller. -/
theorem noRedirectFollow (upstream : Nat → HttpResponse)
    (_h3xx : isRedirectStatus (upstream 0).status = true) :
    clientDo newProxyClientPolicy upstream = (some (upstream 0), 1) ∧
    copyResponse (upstream 0) = .respond (upstream 0).status (upstream 0).body := by
  refine ⟨?_, rfl⟩
  show clientDoAux .useLastResponse upstream 0 10 = (some (upstream 0), 1)
  rw [clientDoAux]
  split <;> rfl

/-- C7 witness: a concrete 302 upstream response is returned as-is after
a single request. -/
theorem noRedirectFollow_witness :
    clientDo newProxyClientPolicy (fun _ => ⟨302, some "http://next", "moved"⟩) =
      (some ⟨302, some "http://next", "moved"⟩, 1) :=
  (noRedirectFollow (fun _ => ⟨302, some "http://next", "moved"⟩) (by decide)).1

/-- C10: with a non-empty forwarding-chain header the client identity is
the header's entire raw value (also in the metadata-lookup URL), and two
chains sharing the same first address can land in different hash buckets
and receive different decisions under one enabled rule. -/
theorem rawChainIdentity (xff remote : String) (h : xff ≠ "") :
    clientIPOf xff remote = xff ∧
    (∀ g : String, lookupURLFor g (clientIPOf xff remote) = g ++ "?ip=" ++ xff) ∧
    (∃ chain1 chain2 : String, ∃ rule : Rule,
      firstForwardedAddr chain1 = firstForwardedAddr chain2 ∧
      chain2 ≠ firstForwardedAddr chain2 ∧
      hashIP chain1 ≠ hashIP chain2 ∧
      rule.enabled = true ∧
      decideRule rule chain1 ≠ decideRule rule chain2) := by
  have hc := clientIPOf_ne xff remote h
  refine ⟨hc, ?_, ?_⟩
  · intro g
    rw [hc]
    rfl
  · exact ⟨"9.9.9.9", "9.9.9.9, 10.0.0.1", ⟨"", "", "", 20, 0, true⟩,
      by decide, by decide, by decide, rfl, by decide⟩

/-- C10 witness: a concrete multi-hop chain is used whole as the client
identity. -/
theorem rawChainIdentity_witness :
    clientIPOf "9.9.9.9, 10.0.0.1" "203.0.113.9" = "9.9.9.9, 10.0.0.1" :=
  (rawChainIdentity "9.9.9.9, 10.0.0.1" "203.0.113.9" (by decide)).1

end Alak
